import Mathlib

/-!
Verification of the layout-driven hash-procedure synthesis engine of
`compiler/gen_llvm/src/llvm/build_hash.rs`, and of the reference-count
storage header of `roc_std/src/storage.rs`.

The LLVM code generator is embedded at two levels:

* a *semantic* level: a fueled evaluator that computes, for a seed, a
  runtime value and a layout, the seed the generated procedure would
  return.  Each Lean function mirrors one Rust function of
  `build_hash.rs`; the mutual recursion of the Rust source is realised
  by open recursion (each `*_core` function takes the recursive entry
  point `build_hash_layout` as an explicit argument), and fuel is
  consumed exactly once per `build_hash_layout` entry, which models one
  generated-procedure call.  The two byte-mixing primitives
  (`bitcode::DICT_HASH` and `bitcode::DICT_HASH_STR`) are opaque,
  externally supplied combiners and therefore appear as parameters.

* a *structural* level (`gen_hash_tag`): the basic-block, switch,
  conditional-branch and phi structure built by `hash_tag`, with block
  ids assigned in the order `append_basic_block` is called (entry = 0,
  merge block = 1, further blocks in order of creation).

The procedure cache (`env.module.get_function` / `build_header_help`
pre-registration, the shared pattern of `build_hash_struct`,
`build_hash_tag` and `build_hash_list`) is modelled generically over
the key type, a key standing for the `(Symbol::GENERIC_HASH, layout)`
identity produced by `layout_ids.get`.
-/

set_option autoImplicit false

namespace RocBuildHash

/-- The two externally supplied byte-mixing primitives:
`mix seed buffer byteWidth` stands for `bitcode::DICT_HASH` and
`mixStr seed s` for `bitcode::DICT_HASH_STR`.  Both are opaque,
deterministic seed-in/seed-out combiners. -/
structure Mixers where
  mix : Nat → List Nat → Nat → Nat
  mixStr : Nat → String → Nat

mutual

/-- `roc_mono::layout::Builtin`.  All fixed-width integer and float
kinds (`Int128 | Int64 | Int32 | Int16 | Int8 | Int1 | Float64 |
Float32 | Float128 | Float16 | Usize`) are represented by `scalar`
together with their stack size in bytes, since `hash_builtin` treats
them uniformly through `layout.stack_size(ptr_bytes)`. -/
inductive Builtin : Type where
  | scalar (width : Nat)
  | str
  | emptyStr
  | emptyDict
  | emptyList
  | emptySet
  | dict (key value : Layout)
  | set (elem : Layout)
  | list (elem : Layout)

/-- `roc_mono::layout::Layout`.  The payloads of `FunctionPointer` and
`Closure` are never inspected by `build_hash.rs` (both arms are
`unreachable!`), so they are not carried here. -/
inductive Layout : Type where
  | builtin (b : Builtin)
  | struct (fields : List Layout)
  | union (u : UnionLayout)
  | recursivePointer
  | functionPointer
  | closure

/-- `roc_mono::layout::UnionLayout`. -/
inductive UnionLayout : Type where
  | nonRecursive (tags : List (List Layout))
  | recursive (tags : List (List Layout))
  | nullableWrapped (nullableId : Nat) (otherTags : List (List Layout))
  | nullableUnwrapped (nullableId : Bool) (otherFields : List Layout)
  | nonNullableUnwrapped (fields : List Layout)

end

/-- `WhenRecursive` of `build_hash.rs`: the recursion context threaded
through every call, recording which union layout a `RecursivePointer`
placeholder currently stands for. -/
inductive WhenRecursive : Type where
  | unreachable
  | loop (u : UnionLayout)

/-- Runtime values, as seen by the generated code.

* `scalar bytes` — the raw bit pattern of a fixed-width scalar;
* `str` — a string value (its small/large representation is opaque);
* `listV` — a list value (length + element buffer);
* `structV` — a block of memory holding the given fields in order;
* `tagged tagId fields` — a union block of memory: reading the leading
  discriminant word (`nonrec_tag_id` / `rec_tag_id_unsafe`) yields
  `tagId`, and reinterpreting the block as a struct shape yields
  `fields`;
* `ptr` — a possibly-null pointer to a pointee block. -/
inductive Val : Type where
  | scalar (bytes : List Nat)
  | str (s : String)
  | listV (elems : List Val)
  | structV (fields : List Val)
  | tagged (tagId : Nat) (fields : List Val)
  | ptr (pointee : Option Val)

/-- Outcomes that abort evaluation.  `recPtrUnreachable` and
`functionLayout` are the two `unreachable!` panics, `dictNotImplemented`
and `setNotImplemented` the two `todo!` panics, `emptyUnionPanic` the
`cases.pop().unwrap()` (resp. `&other_fields[1..]`) panic on a union
with no variants, `nullDereference` the undefined behaviour of reading
a hidden tag word through a null pointer, `badValue` a value that does
not match the layout it is hashed at, and `outOfFuel` exhaustion of the
step budget of the fueled evaluator. -/
inductive HashErr : Type where
  | outOfFuel
  | recPtrUnreachable
  | functionLayout
  | dictNotImplemented
  | setNotImplemented
  | emptyUnionPanic
  | nullDereference
  | badValue
deriving DecidableEq, Repr

/-- Type of the recursive entry point passed to the `*_core` functions:
seed, value, layout, recursion context. -/
abbrev HashRec : Type := Nat → Val → Layout → WhenRecursive → Except HashErr Nat

/-- `fn hash_null(seed) -> seed`: the null branch is a no-op on the seed. -/
def hash_null (seed : Nat) : Nat := seed

/-- `fn hash_empty_collection(seed) -> seed`. -/
def hash_empty_collection (seed : Nat) : Nat := seed

/-- `store_and_use_as_u8_ptr`: spill the scalar to the stack and view it
as a byte buffer.  Only scalar bit patterns are byte-addressed here. -/
def store_and_use_as_u8_ptr : Val → Option (List Nat)
  | .scalar bytes => some bytes
  | _ => none

/-- `hash_bitcode_fn`: call `bitcode::DICT_HASH` with
`(seed, buffer, num_bytes)`. -/
def hash_bitcode_fn (M : Mixers) (seed : Nat) (buffer : List Nat) (width : Nat) : Nat :=
  M.mix seed buffer width

/-- `nonrec_tag_id`: read the inline discriminant of a non-recursive
union block of memory. -/
def nonrec_tag_id : Val → Option Nat
  | .tagged tagId _ => some tagId
  | _ => none

/-- `rec_tag_id_unsafe`: read the hidden discriminant word at the
pointee of a recursive union pointer. -/
def rec_tag_id : Val → Option Nat
  | .tagged tagId _ => some tagId
  | _ => none

/-- `cast_block_of_memory_to_tag`: reinterpret a union block of memory
as a variant's struct shape, yielding its field values. -/
def cast_block_of_memory_to_tag : Val → Option (List Val)
  | .tagged _ fields => some fields
  | _ => none

/-- The `build_load` performed by `hash_ptr_to_struct` after casting the
pointee to the variant's struct shape: the pointee's field values. -/
def load_struct : Val → Option (List Val)
  | .structV fields => some fields
  | .tagged _ fields => some fields
  | _ => none

/-- Runtime meaning of the LLVM `switch` instruction emitted by
`hash_tag`: take the case whose literal equals the scrutinee, otherwise
the default target. -/
def run_switch (cases : List (Nat × Nat)) (dflt : Nat) (scrut : Nat) : Nat :=
  match cases.find? (fun c => c.1 == scrut) with
  | some c => c.2
  | none => dflt

/-- Body of the `for (index, field_layout)` loop of `hash_struct`
(lines 268–309): a `RecursivePointer` field is re-cast to the union
layout recorded in the ambient `when_recursive` context and hashed as
that union (the context being passed on unchanged), any other field is
hashed at its own layout. -/
def hash_struct_field (rec : HashRec) (seed : Nat) (field : Val) (fieldLayout : Layout)
    (whenRecursive : WhenRecursive) : Except HashErr Nat :=
  match fieldLayout with
  | .recursivePointer =>
    match whenRecursive with
    | .unreachable => .error .recPtrUnreachable
    | .loop u => rec seed field (.union u) whenRecursive
  | _ => rec seed field fieldLayout whenRecursive

/-- The indexed field loop of `hash_struct`: `build_extract_value value
index` (modelled by `List.get?`) then the loop body, threading the seed. -/
def hash_struct_go (rec : HashRec) (seed : Nat) (value : List Val)
    (whenRecursive : WhenRecursive) : List Layout → Nat → Except HashErr Nat
  | [], _ => .ok seed
  | fieldLayout :: rest, index =>
    match value.get? index with
    | none => .error .badValue
    | some field =>
      match hash_struct_field rec seed field fieldLayout whenRecursive with
      | .ok seed1 => hash_struct_go rec seed1 value whenRecursive rest (index + 1)
      | .error e => .error e

/-- `fn hash_struct`: fold the seed over the struct's fields in
declared order, starting at index 0.  (The `if false` raw-bytes fast
path of the source is permanently disabled and is therefore not
modelled.) -/
def hash_struct_core (rec : HashRec) (seed : Nat) (value : List Val)
    (whenRecursive : WhenRecursive) (fieldLayouts : List Layout) : Except HashErr Nat :=
  hash_struct_go rec seed value whenRecursive fieldLayouts 0

/-- `fn hash_ptr_to_struct`: cast the pointee to the variant's struct
shape, load it, and hash it as a struct under context
`WhenRecursive::Loop(union_layout)`. -/
def hash_ptr_to_struct_core (rec : HashRec) (seed : Nat) (unionLayout : UnionLayout)
    (fieldLayouts : List Layout) (pointee : Val) : Except HashErr Nat :=
  match load_struct pointee with
  | some fields => hash_struct_core rec seed fields (.loop unionLayout) fieldLayouts
  | none => .error .badValue

/-- `fn hash_tag`: decode the discriminant, dispatch to the selected
variant's branch, and converge on the merge phi.  The `switch` built by
the source pushes one case per variant (discriminants `0..n-1`) and
then `cases.pop().unwrap()`s the last one off to serve as the default
target, which panics when the union has no variants; the runtime
meaning of the resulting instruction is `run_switch` applied to the
remaining cases and that default. -/
def hash_tag_core (rec : HashRec) (seed : Nat) (tag : Val) (unionLayout : UnionLayout) :
    Except HashErr Nat :=
  match unionLayout with
  | .nonRecursive tags =>
    let n := tags.length
    if n = 0 then .error .emptyUnionPanic
    else
      match nonrec_tag_id tag, cast_block_of_memory_to_tag tag with
      | some tagId, some fields =>
        let cases := (List.range n).map fun k => (k, k)
        let dflt := ((cases.getLast?).map Prod.snd).getD 0
        let k := run_switch cases.dropLast dflt tagId
        hash_struct_core rec seed fields .unreachable (tags.getD k [])
      | _, _ => .error .badValue
  | .recursive tags =>
    let n := tags.length
    if n = 0 then .error .emptyUnionPanic
    else
      match tag with
      | .ptr none => .error .nullDereference
      | .ptr (some pointee) =>
        match rec_tag_id pointee with
        | some tagId =>
          let cases := (List.range n).map fun k => (k, k)
          let dflt := ((cases.getLast?).map Prod.snd).getD 0
          let k := run_switch cases.dropLast dflt tagId
          hash_ptr_to_struct_core rec seed unionLayout (tags.getD k []) pointee
        | none => .error .badValue
      | _ => .error .badValue
  | .nullableWrapped _ otherTags =>
    let m := otherTags.length
    if m = 0 then .error .emptyUnionPanic
    else
      match tag with
      | .ptr none => .ok (hash_null seed)
      | .ptr (some pointee) =>
        match rec_tag_id pointee with
        | some tagId =>
          let cases := (List.range m).map fun k => (k, k)
          let dflt := ((cases.getLast?).map Prod.snd).getD 0
          let k := run_switch cases.dropLast dflt tagId
          hash_ptr_to_struct_core rec seed unionLayout (otherTags.getD k []) pointee
        | none => .error .badValue
      | _ => .error .badValue
  | .nullableUnwrapped _ otherFields =>
    if otherFields.length = 0 then .error .emptyUnionPanic
    else
      match tag with
      | .ptr none => .ok (hash_null seed)
      | .ptr (some pointee) =>
        hash_ptr_to_struct_core rec seed unionLayout (otherFields.drop 1) pointee
      | _ => .error .badValue
  | .nonNullableUnwrapped fieldLayouts =>
    match tag with
    | .ptr none => .error .nullDereference
    | .ptr (some pointee) =>
      hash_ptr_to_struct_core rec seed unionLayout fieldLayouts pointee
    | _ => .error .badValue

/-- The element loop of `hash_list` (`incrementing_elem_loop`): walk
indices `0..length-1`, hashing each element and threading the seed
through the `result` slot. -/
def hash_list_go (rec : HashRec) (elementLayout : Layout) (whenRecursive : WhenRecursive)
    (elems : List Val) : Nat → Nat → Nat → Except HashErr Nat
  | 0, _, seed => .ok seed
  | remaining + 1, index, seed =>
    match elems.get? index with
    | none => .error .badValue
    | some element =>
      match rec seed element elementLayout whenRecursive with
      | .ok seed1 => hash_list_go rec elementLayout whenRecursive elems remaining (index + 1) seed1
      | .error e => .error e

/-- `fn hash_list`: load `(length, ptr)`, short-circuit to the input
seed when the list is empty, otherwise fold over the elements in index
order. -/
def hash_list_core (rec : HashRec) (seed : Nat) (value : Val)
    (whenRecursive : WhenRecursive) (elementLayout : Layout) : Except HashErr Nat :=
  match value with
  | .listV elems =>
    if elems.length = 0 then .ok seed
    else hash_list_go rec elementLayout whenRecursive elems elems.length 0 seed
  | _ => .error .badValue

/-- `fn hash_builtin`: scalar kinds go through the byte buffer and
`bitcode::DICT_HASH`, strings through `bitcode::DICT_HASH_STR`, the
four empty-collection sentinels are the identity on the seed, `Dict`
and `Set` are the two `todo!` panics, and `List` delegates to
`hash_list`. -/
def hash_builtin_core (rec : HashRec) (M : Mixers) (seed : Nat) (val : Val)
    (b : Builtin) (whenRecursive : WhenRecursive) : Except HashErr Nat :=
  match b with
  | .scalar width =>
    match store_and_use_as_u8_ptr val with
    | some bytes => .ok (hash_bitcode_fn M seed bytes width)
    | none => .error .badValue
  | .str =>
    match val with
    | .str s => .ok (M.mixStr seed s)
    | _ => .error .badValue
  | .emptyStr => .ok (hash_empty_collection seed)
  | .emptyDict => .ok (hash_empty_collection seed)
  | .emptyList => .ok (hash_empty_collection seed)
  | .emptySet => .ok (hash_empty_collection seed)
  | .dict _ _ => .error .dictNotImplemented
  | .set _ => .error .setNotImplemented
  | .list elementLayout => hash_list_core rec seed val whenRecursive elementLayout

/-- `fn build_hash_layout`: the layout dispatcher.  One unit of fuel is
consumed per entry, modelling one generated-procedure call; the
sub-builders receive `build_hash_layout M fuel` as their recursive
entry point, modelling the call to the cached (possibly
not-yet-finished) procedure.  A `RecursivePointer` under
`WhenRecursive::Unreachable` and a function or closure layout are the
two `unreachable!` panics; under `WhenRecursive::Loop(u)` the value is
re-cast to the union layout `u` and hashed by `build_hash_tag`. -/
def build_hash_layout (M : Mixers) : Nat → Nat → Val → Layout → WhenRecursive →
    Except HashErr Nat
  | 0, _, _, _, _ => .error .outOfFuel
  | fuel + 1, seed, val, layout, whenRecursive =>
    match layout with
    | .builtin b => hash_builtin_core (build_hash_layout M fuel) M seed val b whenRecursive
    | .struct fieldLayouts =>
      match val with
      | .structV fields =>
        hash_struct_core (build_hash_layout M fuel) seed fields whenRecursive fieldLayouts
      | _ => .error .badValue
    | .union u => hash_tag_core (build_hash_layout M fuel) seed val u
    | .recursivePointer =>
      match whenRecursive with
      | .unreachable => .error .recPtrUnreachable
      | .loop u => hash_tag_core (build_hash_layout M fuel) seed val u
    | .functionPointer => .error .functionLayout
    | .closure => .error .functionLayout

/-- `fn append_hash_layout`: an alias of `build_hash_layout`. -/
def append_hash_layout (M : Mixers) (fuel seed : Nat) (val : Val) (layout : Layout)
    (whenRecursive : WhenRecursive) : Except HashErr Nat :=
  build_hash_layout M fuel seed val layout whenRecursive

/-- `fn generic_hash`: the public entry point, starting with no active
recursion context. -/
def generic_hash (M : Mixers) (fuel seed : Nat) (val : Val) (layout : Layout) :
    Except HashErr Nat :=
  build_hash_layout M fuel seed val layout .unreachable

/-- Semantics of the procedure generated by `build_hash_struct` /
`build_hash_struct_help`, whose body is `hash_struct`. -/
def hash_struct (M : Mixers) (fuel seed : Nat) (value : List Val)
    (whenRecursive : WhenRecursive) (fieldLayouts : List Layout) : Except HashErr Nat :=
  hash_struct_core (build_hash_layout M fuel) seed value whenRecursive fieldLayouts

/-- Semantics of the procedure generated by `build_hash_tag` /
`build_hash_tag_help`, whose body is `hash_tag`. -/
def hash_tag (M : Mixers) (fuel seed : Nat) (tag : Val) (unionLayout : UnionLayout) :
    Except HashErr Nat :=
  hash_tag_core (build_hash_layout M fuel) seed tag unionLayout

/-- Semantics of the procedure generated by `build_hash_list` /
`build_hash_list_help`, whose body is `hash_list`. -/
def hash_list (M : Mixers) (fuel seed : Nat) (value : Val)
    (whenRecursive : WhenRecursive) (elementLayout : Layout) : Except HashErr Nat :=
  hash_list_core (build_hash_layout M fuel) seed value whenRecursive elementLayout

/-- `fn hash_ptr_to_struct`, with the procedure-call fuel convention of
the wrappers above. -/
def hash_ptr_to_struct (M : Mixers) (fuel seed : Nat) (unionLayout : UnionLayout)
    (fieldLayouts : List Layout) (pointee : Val) : Except HashErr Nat :=
  hash_ptr_to_struct_core (build_hash_layout M fuel) seed unionLayout fieldLayouts pointee

/-- `fn hash_builtin`, with the procedure-call fuel convention of the
wrappers above. -/
def hash_builtin (M : Mixers) (fuel seed : Nat) (val : Val) (b : Builtin)
    (whenRecursive : WhenRecursive) : Except HashErr Nat :=
  hash_builtin_core (build_hash_layout M fuel) M seed val b whenRecursive

/-- The per-field step function of the struct fold, used to state that
`hash_struct` is a left fold over the `(layout, field)` pairs. -/
def hash_struct_step (M : Mixers) (fuel : Nat) (whenRecursive : WhenRecursive)
    (seed : Nat) (p : Layout × Val) : Except HashErr Nat :=
  hash_struct_field (build_hash_layout M fuel) seed p.2 p.1 whenRecursive

/-! ### Structural model of the control flow generated by `hash_tag`

Basic-block ids are assigned in the order `append_basic_block` is
called in `build_hash_tag_help` / `hash_tag`: the entry block is 0, the
merge block (created first, line 401) is 1, and every further block
gets the next id in order of creation. -/

/-- Discriminant-decoding reads performed inside a basic block:
`build_is_null` and the tag-id load (`nonrec_tag_id` /
`rec_tag_id_unsafe`). -/
inductive ReadOp : Type where
  | isNull
  | tagId
deriving DecidableEq, Repr

/-- Block terminators emitted by `hash_tag`: `build_switch` with its
case list and default target, `build_conditional_branch` (true target
first), `build_unconditional_branch`, and the `build_return` of the
enclosing `build_hash_tag_help`. -/
inductive Term : Type where
  | switch (cases : List (Nat × Nat)) (dflt : Nat)
  | condbr (onTrue onFalse : Nat)
  | br (target : Nat)
  | ret
deriving DecidableEq, Repr

/-- A generated basic block: its id, the discriminant reads it
performs, and its terminator. -/
structure BB : Type where
  bid : Nat
  reads : List ReadOp
  term : Term
deriving DecidableEq, Repr

/-- The generated procedure's shape: its blocks (entry first, then the
merge block, then the blocks in creation order), the id of the block
holding the merge phi, and the phi's incoming list — `(some k, b)` for
variant `k`'s answer arriving from block `b`, `(none, b)` for the
untouched seed arriving from the null branch `b`. -/
structure ProcShape : Type where
  blocks : List BB
  mergeId : Nat
  phiIncoming : List (Option Nat × Nat)
deriving DecidableEq, Repr

/-- The control-flow shape built by `hash_tag` for each
`UnionLayout`.  `none` models the generation-time panic
(`cases.pop().unwrap()` on a union with no variants, or
`&other_fields[1..]` on an empty `other_fields`). -/
def gen_hash_tag : UnionLayout → Option ProcShape
  | .nonRecursive tags =>
    let n := tags.length
    if n = 0 then none
    else
      let allCases := (List.range n).map fun k => (k, k + 2)
      some
        { blocks :=
            ⟨0, [.tagId],
              .switch allCases.dropLast (((allCases.getLast?).map Prod.snd).getD 0)⟩ ::
            ⟨1, [], .ret⟩ ::
            (List.range n).map fun k => ⟨k + 2, [], .br 1⟩
          mergeId := 1
          phiIncoming := (List.range n).map fun k => (some k, k + 2) }
  | .recursive tags =>
    let n := tags.length
    if n = 0 then none
    else
      let allCases := (List.range n).map fun k => (k, k + 2)
      some
        { blocks :=
            ⟨0, [.tagId],
              .switch allCases.dropLast (((allCases.getLast?).map Prod.snd).getD 0)⟩ ::
            ⟨1, [], .ret⟩ ::
            (List.range n).map fun k => ⟨k + 2, [], .br 1⟩
          mergeId := 1
          phiIncoming := (List.range n).map fun k => (some k, k + 2) }
  | .nullableWrapped _ otherTags =>
    let m := otherTags.length
    if m = 0 then none
    else
      let allCases := (List.range m).map fun k => (k, k + 4)
      some
        { blocks :=
            ⟨0, [.isNull], .condbr 2 3⟩ ::
            ⟨1, [], .ret⟩ ::
            ⟨2, [], .br 1⟩ ::
            ⟨3, [.tagId],
              .switch allCases.dropLast (((allCases.getLast?).map Prod.snd).getD 0)⟩ ::
            (List.range m).map fun k => ⟨k + 4, [], .br 1⟩
          mergeId := 1
          phiIncoming := (none, 2) :: (List.range m).map fun k => (some k, k + 4) }
  | .nullableUnwrapped _ otherFields =>
    if otherFields.length = 0 then none
    else
      some
        { blocks := [⟨0, [.isNull], .condbr 2 3⟩, ⟨1, [], .ret⟩, ⟨2, [], .br 1⟩, ⟨3, [], .br 1⟩]
          mergeId := 1
          phiIncoming := [(none, 2), (some 0, 3)] }
  | .nonNullableUnwrapped _ =>
    some
      { blocks := [⟨0, [], .br 1⟩, ⟨1, [], .ret⟩]
        mergeId := 1
        phiIncoming := [(some 0, 0)] }

/-! ### The procedure cache

`build_hash_struct`, `build_hash_tag` and `build_hash_list` share one
memoization pattern: look the function name up in the module
(`env.module.get_function`), and on a miss register a fresh header
under that name (`build_header_help`) *before* synthesizing the body
(`build_hash_*_help`).  It is modelled generically over the key type;
a key stands for the `(Symbol::GENERIC_HASH, layout)` identity string
produced by `layout_ids.get(symbol, layout).to_symbol_string`.  A
handle is the function value; body synthesis is an arbitrary further
transformation `synth` of the module (the body may itself register
other procedures). -/

/-- The LLVM module: registered functions (name ↦ handle) and a fresh
handle supply. -/
structure Module (K : Type) : Type where
  funcs : List (K × Nat)
  nextId : Nat
deriving DecidableEq, Repr

/-- `env.module.get_function(fn_name)`. -/
def get_function {K : Type} [DecidableEq K] (m : Module K) (k : K) : Option Nat :=
  (m.funcs.find? (fun p => p.1 == k)).map (·.2)

/-- `build_header_help`: allocate and register a fresh procedure handle
under the key, returning the extended module and the handle. -/
def build_header_help {K : Type} (m : Module K) (k : K) : Module K × Nat :=
  ({ funcs := (k, m.nextId) :: m.funcs, nextId := m.nextId + 1 }, m.nextId)

/-- The common body of `build_hash_struct` / `build_hash_tag` /
`build_hash_list`: on a hit return the existing handle and leave the
module untouched; on a miss register the header first, then run body
synthesis on the extended module. -/
def build_hash_proc {K : Type} [DecidableEq K] (m : Module K) (k : K)
    (synth : Module K → Module K) : Module K × Nat :=
  match get_function m k with
  | some h => (m, h)
  | none =>
    let r := build_header_help m k
    (synth r.1, r.2)

/-! ### A concrete recursive union, for exercising the evaluator

The linked-list union `Cons(I64, ptr-to-self) | Nil` of the
specification's example scenario.  Following the recursive-union layout
convention of this compiler version, each variant's field list starts
with the hidden tag-id word. -/

/-- The hidden tag-id word stored as the first field of a recursive
union variant. -/
def tag_scalar : Layout := .builtin (.scalar 8)

/-- `Nil | Cons(I64, ptr-to-self)` as a `Recursive` union layout:
variant 0 is `Cons` (tag word, payload, recursive pointer), variant 1
is `Nil` (tag word only). -/
def linked_list_layout : UnionLayout :=
  .recursive [[tag_scalar, .builtin (.scalar 8), .recursivePointer], [tag_scalar]]

/-- A depth-`d` linked-list value: `d` `Cons` cells ending in `Nil`. -/
def chain : Nat → Val
  | 0 => .ptr (some (.tagged 1 [.scalar [1]]))
  | d + 1 => .ptr (some (.tagged 0 [.scalar [0], .scalar [d], chain d]))

/-- A concrete instantiation of the opaque byte-mixing primitives, used
to evaluate the model at closed inputs. -/
def sampleMixers : Mixers where
  mix := fun seed buffer width => seed * 31 + buffer.foldl (· + ·) 0 + width
  mixStr := fun seed s => seed * 31 + s.length

end RocBuildHash

namespace RocStd

/-! ### `roc_std/src/storage.rs`

`isize` arithmetic is modelled on `Int`.  `REFCOUNT_1 = isize::MIN`
and all reference counts produced by the storage API lie in
`[isize::MIN, -1]`, so `rc + 1` and `rc - 1` never leave the `isize`
range on any reachable state and the unwrapped model is exact there
(a debug build would panic on the unreachable `isize::MAX + 1`
overflow before any store happened). -/

/-- `const REFCOUNT_1: NonZeroIsize = isize::MIN`. -/
def REFCOUNT_1 : Int := -(2 ^ 63)

/-- `enum Storage`.  The payload of `referenceCounted` models the
`NonZeroIsize` reference count. -/
inductive Storage : Type where
  | readonly
  | referenceCounted (rc : Int)
deriving DecidableEq, Repr

/-- `Storage::new_reference_counted`. -/
def new_reference_counted : Storage := .referenceCounted REFCOUNT_1

/-- `Storage::increment_reference_count`: a no-op on `Readonly`;
otherwise store `NonZeroIsize::new(rc + 1)` when that is non-zero and
saturate to `Readonly` when `rc + 1 == 0`. -/
def increment_reference_count : Storage → Storage
  | .readonly => .readonly
  | .referenceCounted rc =>
    let new_rc := rc + 1
    if new_rc = 0 then .readonly else .referenceCounted new_rc

/-- `Storage::decrease`: returns the new storage and whether no
references are left.  `none` models the `NonZeroIsize::new(..).unwrap()`
panic (only possible from an rc of 1, which no reachable state has). -/
def decrease : Storage → Option (Storage × Bool)
  | .readonly => some (.readonly, false)
  | .referenceCounted rc =>
    if rc = REFCOUNT_1 then some (.referenceCounted rc, true)
    else if rc - 1 = 0 then none
    else some (.referenceCounted (rc - 1), false)

/-- `Storage::is_readonly`. -/
def is_readonly : Storage → Bool
  | .readonly => true
  | .referenceCounted _ => false

/-- A reference-count operation. -/
inductive RcOp : Type where
  | inc
  | dec
deriving DecidableEq, Repr

/-- Apply one operation; the boolean is `decrease`'s "no references
left" report (`false` for increments). -/
def apply_op (s : Storage) : RcOp → Option (Storage × Bool)
  | .inc => some (increment_reference_count s, false)
  | .dec => decrease s

/-- Run a sequence of operations, collecting every `decrease` report. -/
def run_ops : Storage → List RcOp → Option (Storage × List Bool)
  | s, [] => some (s, [])
  | s, op :: ops =>
    match apply_op s op with
    | none => none
    | some (s1, b) =>
      match run_ops s1 ops with
      | none => none
      | some (s2, bs) => some (s2, b :: bs)

end RocStd

/-! ## Theorems -/

namespace RocBuildHash

theorem except_ok_bind {ε α β : Type} (a : α) (f : α → Except ε β) :
    ((Except.ok a : Except ε α) >>= f) = f a := rfl

theorem except_error_bind {ε α β : Type} (e : ε) (f : α → Except ε β) :
    ((Except.error e : Except ε α) >>= f) = Except.error e := rfl

/-- One `build_hash_layout` step on a struct layout is a call to the
(cached) struct-hashing procedure. -/
theorem build_hash_layout_struct (M : Mixers) (fuel seed : Nat) (fields : List Val)
    (fieldLayouts : List Layout) (wr : WhenRecursive) :
    build_hash_layout M (fuel + 1) seed (.structV fields) (.struct fieldLayouts) wr =
      hash_struct M fuel seed fields wr fieldLayouts := rfl

/-- One `build_hash_layout` step on a union layout is a call to the
(cached) tag-hashing procedure. -/
theorem build_hash_layout_union (M : Mixers) (fuel seed : Nat) (val : Val)
    (u : UnionLayout) (wr : WhenRecursive) :
    build_hash_layout M (fuel + 1) seed val (.union u) wr = hash_tag M fuel seed val u := rfl

/-- One `build_hash_layout` step on a builtin layout dispatches to
`hash_builtin`. -/
theorem build_hash_layout_builtin (M : Mixers) (fuel seed : Nat) (val : Val)
    (b : Builtin) (wr : WhenRecursive) :
    build_hash_layout M (fuel + 1) seed val (.builtin b) wr =
      hash_builtin M fuel seed val b wr := rfl

/-- The struct field loop, started at `index`, is the left fold of the
per-field step over the `(layout, field)` pairs from `index` on. -/
theorem hash_struct_go_eq_foldlM (rec : HashRec) (whenRecursive : WhenRecursive)
    (value : List Val) (fieldLayouts : List Layout) :
    ∀ (index seed : Nat), index + fieldLayouts.length ≤ value.length →
      hash_struct_go rec seed value whenRecursive fieldLayouts index =
        List.foldlM
          (fun s (p : Layout × Val) => hash_struct_field rec s p.2 p.1 whenRecursive)
          seed (fieldLayouts.zip (value.drop index)) := by
  induction fieldLayouts with
  | nil =>
    intro index seed _
    rfl
  | cons fl rest ih =>
    intro index seed h
    have hlt : index < value.length := by
      simp only [List.length_cons] at h
      omega
    have hget : value.get? index = some (value.get ⟨index, hlt⟩) := List.get?_eq_get hlt
    have hdrop : value.drop index = value.get ⟨index, hlt⟩ :: value.drop (index + 1) :=
      List.drop_eq_getElem_cons hlt
    rw [hdrop, List.zip_cons_cons, List.foldlM_cons]
    simp only [hash_struct_go, hget]
    cases hf : hash_struct_field rec seed (value.get ⟨index, hlt⟩) fl whenRecursive with
    | ok seed1 =>
      simp only [hf, except_ok_bind]
      exact ih (index + 1) seed1 (by simp only [List.length_cons] at h; omega)
    | error e =>
      simp only [hf, except_error_bind]

/-- `hash_struct` is the left fold of the per-field step over the
`(layout, field)` pairs, in declared field order. -/
theorem hash_struct_eq_foldlM (M : Mixers) (fuel : Nat) (whenRecursive : WhenRecursive)
    (seed : Nat) (value : List Val) (fieldLayouts : List Layout)
    (h : fieldLayouts.length ≤ value.length) :
    hash_struct M fuel seed value whenRecursive fieldLayouts =
      List.foldlM (hash_struct_step M fuel whenRecursive) seed (fieldLayouts.zip value) := by
  have hstep : hash_struct_step M fuel whenRecursive =
      fun s (p : Layout × Val) =>
        hash_struct_field (build_hash_layout M fuel) s p.2 p.1 whenRecursive := rfl
  have hmain := hash_struct_go_eq_foldlM (build_hash_layout M fuel) whenRecursive value
    fieldLayouts 0 seed (by omega)
  rw [hash_struct, hash_struct_core, hstep]
  simpa using hmain

/-- The list element loop, started at `index` with the remaining count,
is the left fold of the element hash over the remaining elements. -/
theorem hash_list_go_eq_foldlM (rec : HashRec) (elementLayout : Layout)
    (whenRecursive : WhenRecursive) (elems : List Val) :
    ∀ (remaining index seed : Nat), index + remaining = elems.length →
      hash_list_go rec elementLayout whenRecursive elems remaining index seed =
        List.foldlM (fun s e => rec s e elementLayout whenRecursive) seed
          (elems.drop index) := by
  intro remaining
  induction remaining with
  | zero =>
    intro index seed h
    have hnil : elems.drop index = [] := List.drop_eq_nil_of_le (by omega)
    rw [hnil]
    rfl
  | succ r ih =>
    intro index seed h
    have hlt : index < elems.length := by omega
    have hget : elems.get? index = some (elems.get ⟨index, hlt⟩) := List.get?_eq_get hlt
    have hdrop : elems.drop index = elems.get ⟨index, hlt⟩ :: elems.drop (index + 1) :=
      List.drop_eq_getElem_cons hlt
    rw [hdrop, List.foldlM_cons]
    simp only [hash_list_go, hget]
    cases hr : rec seed (elems.get ⟨index, hlt⟩) elementLayout whenRecursive with
    | ok seed1 =>
      simp only [hr, except_ok_bind]
      exact ih (index + 1) seed1 (by omega)
    | error e =>
      simp only [hr, except_error_bind]

/-- `hash_list` on a list value is the left fold of the element hash
over the elements in index order. -/
theorem hash_list_eq_foldlM (M : Mixers) (fuel seed : Nat) (elems : List Val)
    (whenRecursive : WhenRecursive) (elementLayout : Layout) :
    hash_list M fuel seed (.listV elems) whenRecursive elementLayout =
      List.foldlM
        (fun s e => build_hash_layout M fuel s e elementLayout whenRecursive)
        seed elems := by
  rw [hash_list, hash_list_core]
  by_cases hn : elems.length = 0
  · have : elems = [] := List.eq_nil_of_length_eq_zero hn
    subst this
    rfl
  · rw [if_neg hn]
    simpa using hash_list_go_eq_foldlM (build_hash_layout M fuel) elementLayout
      whenRecursive elems elems.length 0 seed (by omega)

theorem range_map_dropLast {α : Type} (f : Nat → α) (n : Nat) :
    ((List.range (n + 1)).map f).dropLast = (List.range n).map f := by
  rw [show n + 1 = Nat.succ n from rfl, List.range_succ, List.map_append]
  exact List.dropLast_concat

theorem range_map_getLast? {α : Type} (f : Nat → α) (n : Nat) :
    ((List.range (n + 1)).map f).getLast? = some (f n) := by
  rw [show n + 1 = Nat.succ n from rfl, List.range_succ, List.map_append]
  exact List.getLast?_concat _

end RocBuildHash

namespace RocBuildHash

/-- A list filtered by a constantly-false predicate is empty. -/
theorem filter_const_false {α : Type} (l : List α) : l.filter (fun _ => false) = [] := by
  induction l with
  | nil => rfl
  | cons a l ih => simp [List.filter_cons, ih]

/-- Filtering a mapped range by a predicate that fails on every image
yields the empty list. -/
theorem filter_map_range_nil {α : Type} (p : α → Bool) (f : Nat → α)
    (h : ∀ k, p (f k) = false) (n : Nat) : ((List.range n).map f).filter p = [] := by
  rw [List.filter_map]
  have hpf : p ∘ f = fun _ => false := funext h
  rw [hpf, filter_const_false, List.map_nil]

/-- Hashing the depth-`d` linked list of `linked_list_layout` with
`d + 1` fuel succeeds: at every `RecursivePointer` occurrence along the
chain a valid `Loop` substitution is in scope, so no
`recPtrUnreachable` (nor any other) failure is reached. -/
theorem chain_hash_ok (M : Mixers) :
    ∀ d : Nat, ∀ seed : Nat, ∃ s : Nat,
      hash_tag_core (build_hash_layout M (d + 1)) seed (chain d) linked_list_layout =
        .ok s := by
  intro d
  induction d with
  | zero =>
    intro seed
    exact ⟨M.mix seed [1] 8, rfl⟩
  | succ d ih =>
    intro seed
    obtain ⟨s, hs⟩ := ih (M.mix (M.mix seed [0] 8) [d] 8)
    refine ⟨s, ?_⟩
    have key : hash_tag_core (build_hash_layout M (d + 1 + 1)) seed (chain (d + 1))
        linked_list_layout =
        match hash_tag_core (build_hash_layout M (d + 1))
            (M.mix (M.mix seed [0] 8) [d] 8) (chain d) linked_list_layout with
        | .ok s1 => .ok s1
        | .error e => .error e := rfl
    rw [key, hs]

/-- Claim C4: hashing a `RecursivePointer` under an active context
`Loop(u)` reinterprets the value as the union `u` and hashes it through
the union-hashing path (`hash_tag`); the variant fields entered from a
pointer-based union are hashed under the same `Loop(u)` substitution
(`hash_ptr_to_struct` installs `WhenRecursive::Loop(union_layout)`),
and a `RecursivePointer` field inside a struct recurses with the
context passed on unchanged, so arbitrarily deep recursive values (the
depth-`d` linked list `chain d`, for every `d`) are hashed with a valid
substitution at every `RecursivePointer` occurrence. -/
theorem claim_C4_recursive_pointer_context (M : Mixers) (fuel seed : Nat) (v : Val)
    (u : UnionLayout) (fls : List Layout) (fs : List Val) (tagId : Nat) (d : Nat) :
    build_hash_layout M (fuel + 1) seed v .recursivePointer (.loop u) =
        hash_tag M fuel seed v u
    ∧ hash_ptr_to_struct M fuel seed u fls (.structV fs) =
        hash_struct M fuel seed fs (.loop u) fls
    ∧ hash_ptr_to_struct M fuel seed u fls (.tagged tagId fs) =
        hash_struct M fuel seed fs (.loop u) fls
    ∧ (∀ s : Nat, hash_struct_step M fuel (.loop u) s (Layout.recursivePointer, v) =
        build_hash_layout M fuel s v (.union u) (.loop u))
    ∧ (∀ s : Nat, ∃ s1 : Nat,
        hash_tag_core (build_hash_layout M (d + 1)) s (chain d) linked_list_layout =
          .ok s1) :=
  ⟨rfl, rfl, rfl, fun _ => rfl, fun s => chain_hash_ok M d s⟩

/-- Claim C6: the hash of a struct is the left fold of the per-field
hash over the fields in declared order (never re-sorted or commuted),
and a field whose layout is `RecursivePointer` is hashed via the
ambient recursion context — as the substituted union layout, with the
context carried along — rather than as an opaque scalar. -/
theorem claim_C6_struct_fold (M : Mixers) (fuel : Nat) (whenRecursive : WhenRecursive)
    (seed : Nat) (value : List Val) (fieldLayouts : List Layout)
    (h : fieldLayouts.length = value.length) :
    hash_struct M fuel seed value whenRecursive fieldLayouts =
      List.foldlM (hash_struct_step M fuel whenRecursive) seed (fieldLayouts.zip value)
    ∧ (∀ (u : UnionLayout) (s : Nat) (v : Val),
        hash_struct_step M fuel (.loop u) s (Layout.recursivePointer, v) =
          build_hash_layout M fuel s v (.union u) (.loop u)) :=
  ⟨hash_struct_eq_foldlM M fuel whenRecursive seed value fieldLayouts (le_of_eq h),
   fun _ _ _ => rfl⟩

/-- Witness for C6 at a concrete two-field struct. -/
theorem claim_C6_witness :
    hash_struct sampleMixers 1 0 [Val.scalar [5], Val.scalar [7]] .unreachable
        [Layout.builtin (.scalar 8), Layout.builtin (.scalar 1)] =
      List.foldlM (hash_struct_step sampleMixers 1 .unreachable) 0
        ([Layout.builtin (.scalar 8), Layout.builtin (.scalar 1)].zip
          [Val.scalar [5], Val.scalar [7]]) :=
  (claim_C6_struct_fold sampleMixers 1 .unreachable 0 [Val.scalar [5], Val.scalar [7]]
    [Layout.builtin (.scalar 8), Layout.builtin (.scalar 1)] rfl).1

/-- Claim C7: the hash of a list is the left fold of the element hash
over the elements in index order starting from the input seed, with the
enclosing recursion context carried into each element's hash; a
zero-length list returns the seed unchanged without entering the fold,
which equals hashing an empty-collection layout with the same seed. -/
theorem claim_C7_list_fold (M : Mixers) (fuel seed : Nat) (elems : List Val)
    (whenRecursive whenRecursive1 : WhenRecursive) (elementLayout : Layout) (v : Val) :
    hash_list M fuel seed (.listV elems) whenRecursive elementLayout =
      List.foldlM (fun s e => build_hash_layout M fuel s e elementLayout whenRecursive)
        seed elems
    ∧ hash_list M fuel seed (.listV []) whenRecursive elementLayout = .ok seed
    ∧ hash_list M fuel seed (.listV []) whenRecursive elementLayout =
        .ok (hash_empty_collection seed)
    ∧ hash_list M fuel seed (.listV []) whenRecursive elementLayout =
        hash_builtin M fuel seed v .emptyList whenRecursive1 :=
  ⟨hash_list_eq_foldlM M fuel seed elems whenRecursive elementLayout, rfl, rfl, rfl⟩

/-- Claim C8: a `RecursivePointer` reached with no active recursion
context, and a function or closure layout under any context, abort
immediately (the `unreachable!` panics), both from the dispatcher and
from the struct field loop; no seed is produced. -/
theorem claim_C8_fatal_invariants (M : Mixers) (fuel seed : Nat) (v : Val)
    (wr : WhenRecursive) (rec : HashRec) :
    build_hash_layout M (fuel + 1) seed v .recursivePointer .unreachable =
        .error .recPtrUnreachable
    ∧ build_hash_layout M (fuel + 1) seed v .functionPointer wr = .error .functionLayout
    ∧ build_hash_layout M (fuel + 1) seed v .closure wr = .error .functionLayout
    ∧ hash_struct_field rec seed v .recursivePointer .unreachable =
        .error .recPtrUnreachable :=
  ⟨rfl, rfl, rfl, rfl⟩

/-- Claim C9: requesting a hash for a dictionary or set layout aborts
with the explicit not-yet-supported failure (the `todo!` panics) and
never produces a seed. -/
theorem claim_C9_dict_set_unimplemented (M : Mixers) (fuel seed : Nat) (v : Val)
    (wr : WhenRecursive) (keyLayout valLayout elemLayout : Layout) :
    build_hash_layout M (fuel + 1) seed v (.builtin (.dict keyLayout valLayout)) wr =
        .error .dictNotImplemented
    ∧ build_hash_layout M (fuel + 1) seed v (.builtin (.set elemLayout)) wr =
        .error .setNotImplemented
    ∧ hash_builtin M fuel seed v (.dict keyLayout valLayout) wr =
        .error .dictNotImplemented
    ∧ hash_builtin M fuel seed v (.set elemLayout) wr = .error .setNotImplemented :=
  ⟨rfl, rfl, rfl, rfl⟩

end RocBuildHash

namespace RocBuildHash

/-- Claim C2: for `NullableWrapped` and `NullableUnwrapped` layouts the
generated procedure tests the pointer for null first — the entry block
performs only the `is_null` test and branches, and the discriminant is
read only in the non-null block (never at all for
`NullableUnwrapped`) — and when the pointer is null the procedure
returns the input seed unchanged, independently of which logical
variant index is designated as the null slot. -/
theorem claim_C2_nullable_null_branch (M : Mixers) (fuel seed : Nat) (i j : Nat)
    (b b1 : Bool) (t : List Layout) (ts : List (List Layout))
    (o : Layout) (os : List Layout) :
    hash_tag M fuel seed (.ptr none) (.nullableWrapped i (t :: ts)) = .ok seed
    ∧ hash_tag M fuel seed (.ptr none) (.nullableUnwrapped b (o :: os)) = .ok seed
    ∧ hash_tag M fuel seed (.ptr none) (.nullableWrapped i (t :: ts)) =
        hash_tag M fuel seed (.ptr none) (.nullableWrapped j (t :: ts))
    ∧ hash_tag M fuel seed (.ptr none) (.nullableUnwrapped b (o :: os)) =
        hash_tag M fuel seed (.ptr none) (.nullableUnwrapped b1 (o :: os))
    ∧ (gen_hash_tag (.nullableWrapped i (t :: ts))).map (fun sh => sh.blocks.head?) =
        some (some ⟨0, [.isNull], .condbr 2 3⟩)
    ∧ (gen_hash_tag (.nullableWrapped i (t :: ts))).map
        (fun sh => (sh.blocks.filter fun bb => bb.reads.contains ReadOp.tagId).map
          (fun bb => bb.bid)) = some [3]
    ∧ (gen_hash_tag (.nullableUnwrapped b (o :: os))).map
        (fun sh => sh.blocks.filter fun bb => bb.reads.contains ReadOp.tagId) =
        some [] := by
  have hrest : ((List.range (ts.length + 1)).map fun k =>
      BB.mk (k + 4) [] (.br 1)).filter (fun bb => bb.reads.contains ReadOp.tagId) = [] :=
    filter_map_range_nil _ _ (fun _ => rfl) _
  refine ⟨rfl, rfl, rfl, rfl, rfl, ?_, rfl⟩
  have h0 : (([ReadOp.isNull].contains ReadOp.tagId : Bool)) = false := rfl
  have h1 : ((([] : List ReadOp).contains ReadOp.tagId : Bool)) = false := rfl
  have h2 : (([ReadOp.tagId].contains ReadOp.tagId : Bool)) = true := rfl
  simp only [gen_hash_tag, List.length_cons]
  rw [if_neg (Nat.succ_ne_zero ts.length)]
  rw [Option.map_some']
  simp [List.filter_cons, h0, h1, h2, hrest]

end RocBuildHash

namespace RocBuildHash

/-- Claim C3: for a `NullableUnwrapped` union, hashing a non-null value
reinterprets the pointee as the single non-null variant's struct shape
— the fields after the leading tag-id slot of `other_fields` (the
source's `&other_fields[1..]`; no tag word is stored for this
representation) — and folds the seed over all of those fields in
declared order, under the `Loop` context of the union; no discriminant
is ever read (no generated block performs a tag-id load). -/
theorem claim_C3_nullable_unwrapped_nonnull (M : Mixers) (fuel seed : Nat) (b : Bool)
    (o : Layout) (os : List Layout) (fs : List Val)
    (h : os.length = fs.length) :
    (∀ p : Val, hash_tag M fuel seed (.ptr (some p)) (.nullableUnwrapped b (o :: os)) =
        hash_ptr_to_struct M fuel seed (.nullableUnwrapped b (o :: os)) ((o :: os).drop 1) p)
    ∧ hash_tag M fuel seed (.ptr (some (.structV fs))) (.nullableUnwrapped b (o :: os)) =
        hash_struct M fuel seed fs (.loop (.nullableUnwrapped b (o :: os))) os
    ∧ hash_tag M fuel seed (.ptr (some (.structV fs))) (.nullableUnwrapped b (o :: os)) =
        List.foldlM (hash_struct_step M fuel (.loop (.nullableUnwrapped b (o :: os))))
          seed (os.zip fs)
    ∧ (gen_hash_tag (.nullableUnwrapped b (o :: os))).map
        (fun sh => sh.blocks.filter fun bb => bb.reads.contains ReadOp.tagId) =
        some [] := by
  refine ⟨fun p => rfl, rfl, ?_, rfl⟩
  exact hash_struct_eq_foldlM M fuel (.loop (.nullableUnwrapped b (o :: os))) seed fs os
    (le_of_eq h)

/-- Witness for C3 at a concrete one-field non-null value. -/
theorem claim_C3_witness :
    hash_tag sampleMixers 1 0 (.ptr (some (.structV [Val.scalar [9]])))
        (.nullableUnwrapped true [Layout.builtin (.scalar 8), Layout.builtin (.scalar 8)]) =
      List.foldlM
        (hash_struct_step sampleMixers 1
          (.loop (.nullableUnwrapped true
            [Layout.builtin (.scalar 8), Layout.builtin (.scalar 8)])))
        0 ([Layout.builtin (.scalar 8)].zip [Val.scalar [9]]) :=
  (claim_C3_nullable_unwrapped_nonnull sampleMixers 1 0 true (Layout.builtin (.scalar 8))
    [Layout.builtin (.scalar 8)] [Val.scalar [9]] rfl).2.2.1

end RocBuildHash

namespace RocBuildHash

/-- Claim C1: for every multi-variant union dispatch (`NonRecursive`,
`Recursive`, and the non-null branch of `NullableWrapped`) over
variants `0..N-1` (`N = ts.length + 1`), `hash_tag` builds exactly one
branch block per variant, indexed by discriminant value: the switch
lists cases `0..N-2` and uses the last variant's branch block as the
default target (the popped case `N-1`); every branch block terminates
with an unconditional branch to the single merge block, whose phi
receives exactly one incoming seed per variant (plus the null branch's
seed for `NullableWrapped`), and that merge block is the unique block
returning the single output seed. -/
theorem claim_C1_union_dispatch_and_merge (t : List Layout) (ts : List (List Layout))
    (nid : Nat) :
    (∃ sh : ProcShape, gen_hash_tag (.nonRecursive (t :: ts)) = some sh
      ∧ sh.blocks.head? = some ⟨0, [.tagId],
          .switch ((List.range ts.length).map fun k => (k, k + 2)) (ts.length + 2)⟩
      ∧ sh.blocks.drop 2 =
          ((List.range (ts.length + 1)).map fun k => ⟨k + 2, [], .br sh.mergeId⟩)
      ∧ sh.phiIncoming = ((List.range (ts.length + 1)).map fun k => (some k, k + 2))
      ∧ sh.mergeId = 1
      ∧ sh.blocks.get? 1 = some ⟨1, [], .ret⟩
      ∧ (sh.blocks.filter fun bb => bb.term == Term.ret).length = 1)
    ∧ (∃ sh : ProcShape, gen_hash_tag (.recursive (t :: ts)) = some sh
      ∧ sh.blocks.head? = some ⟨0, [.tagId],
          .switch ((List.range ts.length).map fun k => (k, k + 2)) (ts.length + 2)⟩
      ∧ sh.blocks.drop 2 =
          ((List.range (ts.length + 1)).map fun k => ⟨k + 2, [], .br sh.mergeId⟩)
      ∧ sh.phiIncoming = ((List.range (ts.length + 1)).map fun k => (some k, k + 2))
      ∧ sh.mergeId = 1
      ∧ sh.blocks.get? 1 = some ⟨1, [], .ret⟩
      ∧ (sh.blocks.filter fun bb => bb.term == Term.ret).length = 1)
    ∧ (∃ sh : ProcShape, gen_hash_tag (.nullableWrapped nid (t :: ts)) = some sh
      ∧ sh.blocks.head? = some ⟨0, [.isNull], .condbr 2 3⟩
      ∧ sh.blocks.get? 2 = some ⟨2, [], .br 1⟩
      ∧ sh.blocks.get? 3 = some ⟨3, [.tagId],
          .switch ((List.range ts.length).map fun k => (k, k + 4)) (ts.length + 4)⟩
      ∧ sh.blocks.drop 4 =
          ((List.range (ts.length + 1)).map fun k => ⟨k + 4, [], .br sh.mergeId⟩)
      ∧ sh.phiIncoming =
          (none, 2) :: ((List.range (ts.length + 1)).map fun k => (some k, k + 4))
      ∧ sh.mergeId = 1
      ∧ sh.blocks.get? 1 = some ⟨1, [], .ret⟩
      ∧ (sh.blocks.filter fun bb => bb.term == Term.ret).length = 1) := by
  have hsw : ∀ (cs : List (Nat × Nat)) (d : Nat), (Term.switch cs d == Term.ret) = false :=
    fun _ _ => rfl
  have hcb : ∀ (a b : Nat), (Term.condbr a b == Term.ret) = false := fun _ _ => rfl
  have hbr : ∀ tg : Nat, (Term.br tg == Term.ret) = false := fun _ => rfl
  have hret : (Term.ret == Term.ret) = true := rfl
  have hrest2 : ∀ n : Nat, (((List.range n).map fun k => BB.mk (k + 2) [] (.br 1)).filter
      fun bb => bb.term == Term.ret) = [] :=
    fun n => filter_map_range_nil _ _ (fun _ => rfl) n
  have hrest4 : ∀ n : Nat, (((List.range n).map fun k => BB.mk (k + 4) [] (.br 1)).filter
      fun bb => bb.term == Term.ret) = [] :=
    fun n => filter_map_range_nil _ _ (fun _ => rfl) n
  refine ⟨⟨_, rfl, ?_, rfl, rfl, rfl, rfl, ?_⟩, ⟨_, rfl, ?_, rfl, rfl, rfl, rfl, ?_⟩,
    ⟨_, rfl, rfl, rfl, ?_, rfl, rfl, rfl, rfl, ?_⟩⟩
  · simp only [List.head?_cons, List.length_cons]
    rw [range_map_dropLast, range_map_getLast?]
    rfl
  · simp only [List.length_cons, List.filter_cons, hsw, hret, hrest2, if_false, if_true]
    simp
  · simp only [List.head?_cons, List.length_cons]
    rw [range_map_dropLast, range_map_getLast?]
    rfl
  · simp only [List.length_cons, List.filter_cons, hsw, hret, hrest2, if_false, if_true]
    simp
  · simp only [List.get?_cons_succ, List.get?_cons_zero, List.length_cons]
    rw [range_map_dropLast, range_map_getLast?]
    rfl
  · simp only [List.length_cons, List.filter_cons, hsw, hcb, hbr, hret, hrest4,
      if_false, if_true]
    simp
end RocBuildHash

namespace RocBuildHash

/-- On a cache miss `build_header_help` registers the key before any
body synthesis: the key is resolvable in the module it returns. -/
theorem get_function_after_header {K : Type} [DecidableEq K] (m : Module K) (k : K) :
    get_function (build_header_help m k).1 k = some (build_header_help m k).2 := by
  simp only [get_function, build_header_help]
  rw [List.find?_cons_of_pos _ (by simp)]
  rfl

/-- A `find?`-miss means the key is absent from the association list. -/
theorem not_mem_keys_of_get_function_none {K : Type} [DecidableEq K] (m : Module K)
    (k : K) (h : get_function m k = none) : k ∉ m.funcs.map Prod.fst := by
  intro hmem
  obtain ⟨p, hp, hfst⟩ := List.mem_map.mp hmem
  have hfind : m.funcs.find? (fun p => p.1 == k) = none := by
    cases hf : m.funcs.find? (fun p => p.1 == k) with
    | none => rfl
    | some q => rw [get_function, hf] at h; exact absurd h (by simp)
  have := List.find?_eq_none.mp hfind p hp
  exact this (by simp [hfst])

/-- Claim C5: the procedure cache registers a callable handle under the
key before the body is synthesized (so a recursive layout's body can
call the not-yet-finished procedure), returns the existing handle on a
hit without regenerating anything, hands later requests the handle the
first request produced, and keeps at most one registered procedure per
distinct key. -/
theorem claim_C5_procedure_cache :
    ∀ (K : Type) [DecidableEq K] (m : Module K) (k : K)
      (synth : Module K → Module K),
      (∀ h : Nat, get_function m k = some h → build_hash_proc m k synth = (m, h))
      ∧ (get_function m k = none →
          get_function (build_header_help m k).1 k = some (build_header_help m k).2
          ∧ build_hash_proc m k synth =
              (synth (build_header_help m k).1, (build_header_help m k).2))
      ∧ ((∀ (m1 : Module K) (k1 : K) (h1 : Nat),
            get_function m1 k1 = some h1 → get_function (synth m1) k1 = some h1) →
          get_function (build_hash_proc m k synth).1 k =
              some (build_hash_proc m k synth).2
          ∧ ∀ synth1 : Module K → Module K,
              build_hash_proc (build_hash_proc m k synth).1 k synth1 =
                ((build_hash_proc m k synth).1, (build_hash_proc m k synth).2))
      ∧ ((m.funcs.map Prod.fst).Nodup →
          (∀ m1 : Module K,
            (m1.funcs.map Prod.fst).Nodup → ((synth m1).funcs.map Prod.fst).Nodup) →
          (((build_hash_proc m k synth).1).funcs.map Prod.fst).Nodup) := by
  intro K instK m k synth
  refine ⟨?_, ?_, ?_, ?_⟩
  · intro h hh
    simp only [build_hash_proc, hh]
  · intro hnone
    exact ⟨get_function_after_header m k, by simp only [build_hash_proc, hnone]⟩
  · intro hmono
    cases hmk : get_function m k with
    | some h =>
      refine ⟨?_, ?_⟩
      · simp only [build_hash_proc, hmk]
      · intro synth1
        simp only [build_hash_proc, hmk]
    | none =>
      have hreg := get_function_after_header m k
      have hkeep := hmono (build_header_help m k).1 k (build_header_help m k).2 hreg
      refine ⟨?_, ?_⟩
      · simp only [build_hash_proc, hmk]
        exact hkeep
      · intro synth1
        have hfirst : build_hash_proc m k synth =
            (synth (build_header_help m k).1, (build_header_help m k).2) := by
          simp only [build_hash_proc, hmk]
        rw [hfirst]
        simp only [build_hash_proc, hkeep]
  · intro hnd hsynth
    cases hmk : get_function m k with
    | some h =>
      simpa only [build_hash_proc, hmk] using hnd
    | none =>
      have hnotmem := not_mem_keys_of_get_function_none m k hmk
      have hnd1 : (((build_header_help m k).1).funcs.map Prod.fst).Nodup := by
        simp only [build_header_help, List.map_cons]
        exact List.nodup_cons.mpr ⟨hnotmem, hnd⟩
      simp only [build_hash_proc, hmk]
      exact hsynth (build_header_help m k).1 hnd1

/-- Witness for C5 on a concrete `Nat`-keyed module: the first request
registers key 0 before synthesis (with `synth = id`), a later request
for the same key returns the same handle with the module unchanged. -/
theorem claim_C5_witness :
    get_function (build_hash_proc (K := Nat) ⟨[], 0⟩ 0 id).1 0 =
        some (build_hash_proc (K := Nat) ⟨[], 0⟩ 0 id).2
    ∧ build_hash_proc (build_hash_proc (K := Nat) ⟨[], 0⟩ 0 id).1 0 id =
        ((build_hash_proc (K := Nat) ⟨[], 0⟩ 0 id).1,
          (build_hash_proc (K := Nat) ⟨[], 0⟩ 0 id).2)
    ∧ build_hash_proc (K := Nat) ⟨[(0, 5)], 6⟩ 0 id = (⟨[(0, 5)], 6⟩, 5)
    ∧ (((build_hash_proc (K := Nat) ⟨[], 0⟩ 0 id).1).funcs.map Prod.fst).Nodup := by
  have h := claim_C5_procedure_cache Nat (⟨[], 0⟩ : Module Nat) 0 id
  have hmono : ∀ (m1 : Module Nat) (k1 : Nat) (h1 : Nat),
      get_function m1 k1 = some h1 → get_function (id m1) k1 = some h1 := fun _ _ _ hh => hh
  have h2 := claim_C5_procedure_cache Nat (⟨[(0, 5)], 6⟩ : Module Nat) 0 id
  refine ⟨(h.2.2.1 hmono).1, (h.2.2.1 hmono).2 id, h2.1 5 (by decide), ?_⟩
  exact h.2.2.2 (by decide) (fun m1 hm1 => hm1)

end RocBuildHash

namespace RocStd

/-- After a storage has become `Readonly`, every further sequence of
increment/decrease operations leaves it `Readonly` and every `decrease`
report is `false`: it is never again reported freeable. -/
theorem run_ops_readonly (ops : List RcOp) :
    run_ops .readonly ops = some (.readonly, List.replicate ops.length false) := by
  induction ops with
  | nil => rfl
  | cons op ops ih =>
    cases op with
    | inc => simp [run_ops, apply_op, increment_reference_count, ih, List.replicate_succ]
    | dec => simp [run_ops, apply_op, decrease, REFCOUNT_1, ih, List.replicate_succ]

/-- Claim C10: `increment_reference_count` leaves `Readonly` unchanged;
on `ReferenceCounted(rc)` it stores `ReferenceCounted(rc + 1)` unless
`rc + 1` is zero (counter overflow), in which case the storage
saturates to `Readonly` permanently: once readonly, `decrease` never
again reports the value freeable, over any sequence of operations. -/
theorem claim_C10_storage_saturation (rc : Int) (ops : List RcOp) :
    increment_reference_count .readonly = .readonly
    ∧ increment_reference_count (.referenceCounted rc) =
        (if rc + 1 = 0 then .readonly else .referenceCounted (rc + 1))
    ∧ increment_reference_count (.referenceCounted (-1)) = .readonly
    ∧ decrease .readonly = some (.readonly, false)
    ∧ run_ops .readonly ops = some (.readonly, List.replicate ops.length false) :=
  ⟨rfl, rfl, by decide, rfl, run_ops_readonly ops⟩

end RocStd
